import Mathlib

/-!
Shallow embedding of the tech-news-platform editorial pipeline
(`modules/fetcher/cleaner.py`, `modules/selector/selector.py`,
`modules/validator/draft_validator.py`, `modules/writer/memory.py`,
`run_pipeline.py`) together with theorems settling the frozen claims.

Python strings are modelled as Lean `String`/`List Char`; Python floats as
`ℚ` (all constants involved are exactly representable); machine-level hash
arithmetic as `Nat` with explicit `% 2^32`.
-/

/-! ## Python string primitives -/

/-- Characters treated as whitespace by `str.split()` / `str.strip()` /
regex `\s` (ASCII fragment, which covers all inputs in this development). -/
def isPyWs (c : Char) : Bool :=
  c = ' ' ∨ c = '\t' ∨ c = '\n' ∨ c = '\x0d' ∨ c = '\x0c' ∨ c = '\x0b'

/-- Helper for `pySplitList`: accumulates the current word. -/
def pySplitAux : List Char → List Char → List (List Char)
  | [], acc => if acc.isEmpty then [] else [acc.reverse]
  | c :: cs, acc =>
    if isPyWs c then
      if acc.isEmpty then pySplitAux cs [] else acc.reverse :: pySplitAux cs []
    else pySplitAux cs (c :: acc)

/-- Python `str.split()` with no arguments: split on runs of whitespace,
discarding empty strings. -/
def pySplitList (s : List Char) : List (List Char) := pySplitAux s []

/-- Python `len(s.split())`: naive whitespace token count. -/
def pyWordCount (s : String) : ℕ := (pySplitList s.data).length

/-- Python `str.strip()`: drop leading and trailing whitespace. -/
def pyStrip (s : List Char) : List Char :=
  ((s.dropWhile isPyWs).reverse.dropWhile isPyWs).reverse

/-- Python `str.lower()` (ASCII fragment). -/
def pyLower (s : List Char) : List Char := s.map Char.toLower

/-- Helper for `collapseWs`: `pending` records whether we are inside a
whitespace run that has not yet been emitted. -/
def collapseWsAux : List Char → Bool → List Char
  | [], _ => []
  | c :: cs, pending =>
    if isPyWs c then
      if pending then collapseWsAux cs true else ' ' :: collapseWsAux cs true
    else c :: collapseWsAux cs false

/-- Python `re.sub(r"\s+", " ", s)`: replace every maximal whitespace run
with a single space. -/
def collapseWs (s : List Char) : List Char :=
  collapseWsAux s false

/-- Prefix test on character lists. -/
def hasPrefixL : List Char → List Char → Bool
  | [], _ => true
  | _ :: _, [] => false
  | n :: ns, h :: hs => n = h && hasPrefixL ns hs

/-- Python substring test `needle in haystack` on lists of characters. -/
def isSubstrList (needle : List Char) : List Char → Bool
  | [] => hasPrefixL needle []
  | h :: hs => hasPrefixL needle (h :: hs) || isSubstrList needle hs

/-- Python `needle in haystack` for strings. -/
def pyContains (haystack needle : String) : Bool :=
  isSubstrList needle.data haystack.data

/-- Python `l[-n:]` on lists: the last `n` elements (whole list when
`n ≥ length`). -/
def takeLast (n : ℕ) (l : List α) : List α := l.drop (l.length - n)

/-! ## SHA-256 (`hashlib.sha256(...).hexdigest()`), word-level over `Nat` -/

/-- Truncation to a 32-bit word. -/
def w32 (n : ℕ) : ℕ := n % 2 ^ 32

/-- Right rotation of a 32-bit word by `n` bits. -/
def rotr32 (n x : ℕ) : ℕ := w32 (x / 2 ^ n + x % 2 ^ n * 2 ^ (32 - n))

/-- SHA-256 small sigma 0. -/
def sml0 (x : ℕ) : ℕ := rotr32 7 x ^^^ rotr32 18 x ^^^ x / 2 ^ 3

/-- SHA-256 small sigma 1. -/
def sml1 (x : ℕ) : ℕ := rotr32 17 x ^^^ rotr32 19 x ^^^ x / 2 ^ 10

/-- SHA-256 big sigma 0. -/
def big0 (x : ℕ) : ℕ := rotr32 2 x ^^^ rotr32 13 x ^^^ rotr32 22 x

/-- SHA-256 big sigma 1. -/
def big1 (x : ℕ) : ℕ := rotr32 6 x ^^^ rotr32 11 x ^^^ rotr32 25 x

/-- SHA-256 round constants (decimal rendering of the FIPS 180-4 table). -/
def shaK : List ℕ :=
  [1116352408, 1899447441, 3049323471, 3921009573, 961987163,
   1508970993, 2453635748, 2870763221, 3624381080, 310598401,
   607225278, 1426881987, 1925078388, 2162078206, 2614888103,
   3248222580, 3835390401, 4022224774, 264347078, 604807628,
   770255983, 1249150122, 1555081692, 1996064986, 2554220882,
   2821834349, 2952996808, 3210313671, 3336571891, 3584528711,
   113926993, 338241895, 666307205, 773529912, 1294757372,
   1396182291, 1695183700, 1986661051, 2177026350, 2456956037,
   2730485921, 2820302411, 3259730800, 3345764771, 3516065817,
   3600352804, 4094571909, 275423344, 430227734, 506948616,
   659060556, 883997877, 958139571, 1322822218, 1537002063,
   1747873779, 1955562222, 2024104815, 2227730452, 2361852424,
   2428436474, 2756734187, 3204031479, 3329325298]

/-- SHA-256 initial hash state (decimal rendering). -/
def shaH0 : List ℕ :=
  [1779033703, 3144134277, 1013904242, 2773480762,
   1359893119, 2600822924, 528734635, 1541459225]

/-- SHA-256 message padding: the 0x80 marker byte, a zero run, and the
bit-length rendered on eight big-endian bytes, filling out 64-byte blocks. -/
def shaPad (msg : List ℕ) : List ℕ :=
  let len := msg.length
  let zeros := (119 - len % 64) % 64
  msg ++ 0x80 :: List.replicate zeros 0 ++
    (List.range 8).map fun i => 8 * len / 2 ^ (8 * (7 - i)) % 256

/-- Group a byte list into big-endian 32-bit words (length assumed to be a
multiple of 4). -/
def bytesToWords : List ℕ → List ℕ
  | b0 :: b1 :: b2 :: b3 :: rest =>
    (b0 * 2 ^ 24 + b1 * 2 ^ 16 + b2 * 2 ^ 8 + b3) :: bytesToWords rest
  | _ => []

/-- Split a word list into 16-word blocks (length is a multiple of 16 after
padding; a ragged tail would be dropped). -/
def toBlocks : List ℕ → List (List ℕ)
  | a1 :: a2 :: a3 :: a4 :: a5 :: a6 :: a7 :: a8 ::
    a9 :: a10 :: a11 :: a12 :: a13 :: a14 :: a15 :: a16 :: rest =>
    [a1, a2, a3, a4, a5, a6, a7, a8,
     a9, a10, a11, a12, a13, a14, a15, a16] :: toBlocks rest
  | _ => []

/-- Message-schedule expansion from 16 to 64 words. -/
def shaSchedule (block : List ℕ) : List ℕ :=
  (List.range 48).foldl
    (fun ws _ =>
      let n := ws.length
      ws ++ [w32 (sml1 (ws.getD (n - 2) 0) + ws.getD (n - 7) 0 +
        sml0 (ws.getD (n - 15) 0) + ws.getD (n - 16) 0)])
    block

/-- One SHA-256 compression round. -/
def shaRound (st : List ℕ) (kw : ℕ × ℕ) : List ℕ :=
  match st with
  | [a, b, c, d, e, f, g, h] =>
    let ch := e &&& f ^^^ (0xffffffff ^^^ e) &&& g
    let maj := a &&& b ^^^ a &&& c ^^^ b &&& c
    let t1 := w32 (h + big1 e + ch + kw.1 + kw.2)
    let t2 := w32 (big0 a + maj)
    [w32 (t1 + t2), a, b, c, w32 (d + t1), e, f, g]
  | other => other

/-- Process one 16-word block into the running hash state. -/
def shaProcessBlock (st : List ℕ) (block : List ℕ) : List ℕ :=
  let final := (shaK.zip (shaSchedule block)).foldl shaRound st
  (st.zip final).map fun p => w32 (p.1 + p.2)

/-- SHA-256 of a byte list, as eight 32-bit words. -/
def sha256Words (msg : List ℕ) : List ℕ :=
  (toBlocks (bytesToWords (shaPad msg))).foldl shaProcessBlock shaH0

/-- Lower-case hex digit. -/
def hexDigit (n : ℕ) : Char :=
  if n < 10 then Char.ofNat (48 + n) else Char.ofNat (87 + n)

/-- Eight-digit lower-case hex rendering of a 32-bit word. -/
def wordToHex (x : ℕ) : List Char :=
  (List.range 8).map fun i => hexDigit (x / 2 ^ (4 * (7 - i)) % 16)

/-- UTF-8 encoding of one character (Python `str.encode()`). -/
def utf8Char (c : Char) : List ℕ :=
  let n := c.toNat
  if n < 0x80 then [n]
  else if n < 0x800 then [0xc0 + n / 64, 0x80 + n % 64]
  else if n < 0x10000 then
    [0xe0 + n / 4096, 0x80 + n / 64 % 64, 0x80 + n % 64]
  else
    [0xf0 + n / 262144, 0x80 + n / 4096 % 64, 0x80 + n / 64 % 64,
     0x80 + n % 64]

/-- UTF-8 bytes of a string (Python `s.encode()`). -/
def utf8Bytes (s : String) : List ℕ := s.data.flatMap utf8Char

/-- Python `hashlib.sha256(s.encode()).hexdigest()`. -/
def sha256Hex (s : String) : String :=
  ⟨(sha256Words (utf8Bytes s)).flatMap wordToHex⟩

/-! ## Item model and cleaner (`modules/fetcher/cleaner.py`) -/

/-- A raw/cleaned news item as assembled by `rss_fetch.fetch_all`. -/
structure NewsItem where
  title : String
  link : String
  summary : String
  category : String
  source : String
  source_authority : ℚ
deriving DecidableEq, Repr

/-- `deduplicate`, threading the `seen` key set; the key is
`(title.lower(), normalize_url(link))`.  `normUrl` stands for the
`urllib.parse`-based `normalize_url` collaborator. -/
def dedupAux (normUrl : String → String) :
    List NewsItem → List (String × String) → List NewsItem
  | [], _ => []
  | i :: rest, seen =>
    if ((⟨pyLower i.title.data⟩ : String), normUrl i.link) ∈ seen then
      dedupAux normUrl rest seen
    else
      i :: dedupAux normUrl rest
        (((⟨pyLower i.title.data⟩ : String), normUrl i.link) :: seen)

/-- `cleaner.deduplicate`. -/
def deduplicate (normUrl : String → String) (items : List NewsItem) :
    List NewsItem :=
  dedupAux normUrl items []

/-- `cleaner.clean_items`: drop items with short titles, clean the summary,
canonicalize the link, then deduplicate.  `cleanText` stands for the
BeautifulSoup-based `clean_text` collaborator. -/
def clean_items (cleanText normUrl : String → String)
    (items : List NewsItem) : List NewsItem :=
  deduplicate normUrl <| items.filterMap fun i =>
    if i.title.length < 20 then none
    else some { i with summary := cleanText i.summary, link := normUrl i.link }

/-! ## Selection engine (`modules/selector/selector.py`) -/

/-- `selector.TARGET_TOTAL`. -/
def TARGET_TOTAL : ℕ := 45

/-- `selector.CATEGORY_QUOTA`. -/
def CATEGORY_QUOTA : ℕ := 5

/-- `selector._score_item`: authority-dominated weighted editorial score,
floored at `0.1`. -/
def score_item (i : NewsItem) : ℚ :=
  let base : ℚ := 1 * (i.source_authority * 2)
  let t : String := ⟨pyLower i.title.data⟩
  let base :=
    if ["regulation", "policy", "security", "ai", "privacy"].any
        (fun k => pyContains t k) then base + 6/10 else base
  let base :=
    if ["raises", "funding", "acquires", "ipo"].any
        (fun k => pyContains t k) then base + 4/10 else base
  let base :=
    if ["review", "hands-on", "leak", "rumor"].any
        (fun k => pyContains t k) then base - 5/10 else base
  max base (1/10)

/-- An item together with its attached `item["weight"]`. -/
structure Weighted where
  item : NewsItem
  weight : ℚ
deriving DecidableEq, Repr

/-- One step of `defaultdict` grouping: append `w` to its category's bucket,
or open a new bucket at the end (Python dicts preserve insertion order). -/
def insertGrouped (acc : List (String × List Weighted)) (w : Weighted) :
    List (String × List Weighted) :=
  match acc with
  | [] => [(w.item.category, [w])]
  | (c, b) :: rest =>
    if c = w.item.category then (c, b ++ [w]) :: rest
    else (c, b) :: insertGrouped rest w

/-- Group weighted items by `item.get("category", "unknown")`. -/
def groupByCategory (ws : List Weighted) : List (String × List Weighted) :=
  ws.foldl insertGrouped []

/-- Stable descending insertion for `sortByWeightDesc`: `x` goes after
every earlier element of equal or larger weight. -/
def insertDesc (x : Weighted) : List Weighted → List Weighted
  | [] => [x]
  | y :: ys =>
    if decide (x.weight ≤ y.weight) then y :: insertDesc x ys
    else x :: y :: ys

/-- Python `sorted(bucket, key=lambda x: x["weight"], reverse=True)`:
stable descending sort by weight (insertion sort — extensionally the same
as any stable sort, and kernel-evaluable). -/
def sortByWeightDesc (b : List Weighted) : List Weighted :=
  b.foldl (fun acc x => insertDesc x acc) []

/-- The category-first phase of `select_news`: from each bucket, the top
`min(CATEGORY_QUOTA, len(bucket))` by descending weight. -/
def categorySelect (ws : List Weighted) : List Weighted :=
  (groupByCategory ws).flatMap fun cb =>
    if cb.2.isEmpty then [] else (sortByWeightDesc cb.2).take CATEGORY_QUOTA

/-- The global top-up phase of `select_news`: while fewer than
`TARGET_TOTAL` are selected, append the not-yet-selected items
(`[i for i in items if i not in selected]`) by descending weight. -/
def topUp (ws sel : List Weighted) : List Weighted :=
  if sel.length < TARGET_TOTAL then
    sel ++ (sortByWeightDesc (ws.filter fun i => decide (i ∉ sel))).take
      (TARGET_TOTAL - sel.length)
  else sel

/-- `selector.select_news`.  `shuffle` stands for the in-place
`random.shuffle` applied at the end (an arbitrary permutation). -/
def select_news (shuffle : List Weighted → List Weighted)
    (items : List NewsItem) : List Weighted :=
  if items.isEmpty then []
  else
    shuffle (topUp (items.map fun i => ⟨i, score_item i⟩)
      (categorySelect (items.map fun i => ⟨i, score_item i⟩)))


/-! ## Draft validator (`modules/validator/draft_validator.py`) -/

/-- `DraftDecision` (PUBLISH / HOLD). -/
inductive DraftDecision where
  | PUBLISH
  | HOLD
deriving DecidableEq, Repr

/-- One entry of `data/validator/history.json` as written by
`_record_article`. -/
structure HistEntry where
  date : String
  title : String
  title_hash : String
  content_hash : String
  angle : String
  word_count : ℕ
deriving DecidableEq, Repr

/-- The validator's mutable state: the in-memory `self.history` plus the
parsed contents of the on-disk history file. -/
structure ValidatorState where
  max_history : ℕ
  history : List HistEntry
  disk : List HistEntry
deriving DecidableEq, Repr

/-- An article dict as consumed by `DraftValidator.decide`
(`article.get("title"/"content"/"angle")`). -/
structure Article where
  title : String
  content : String
  angle : String
deriving DecidableEq, Repr

/-- `_is_duplicate_title`: case-insensitive, whitespace-trimmed exact match
against history. -/
def is_duplicate_title (st : ValidatorState) (title : String) : Bool :=
  let tl := pyStrip (pyLower title.data)
  st.history.any fun e => pyStrip (pyLower e.title.data) = tl

/-- Helper for sentence fragmentation: `pd` records whether the previous
character belonged to a `[.!?]+` delimiter run. -/
def splitSentAux : List Char → Bool → List Char → List (List Char)
  | [], _, acc => [acc.reverse]
  | c :: cs, pd, acc =>
    if c = '.' ∨ c = '!' ∨ c = '?' then
      if pd then splitSentAux cs true acc
      else acc.reverse :: splitSentAux cs true []
    else splitSentAux cs false (c :: acc)

/-- Python `re.split(r"[.!?]+", content)`. -/
def sentenceFrags (s : List Char) : List (List Char) :=
  splitSentAux s false []

/-- The qualifying sentences of `_detect_repetition`: fragments whose
stripped form is longer than 20 characters. -/
def qualSentences (content : String) : List (List Char) :=
  (sentenceFrags content.data).filterMap fun f =>
    let t := pyStrip f
    if 20 < t.length then some t else none

/-- Count sentences whose normalized form (`re.sub(r"\s+", " ", s.lower())`)
was already seen. -/
def countDups : List (List Char) → List (List Char) → ℕ
  | [], _ => 0
  | s :: rest, seen =>
    let n := collapseWs (pyLower s)
    if n ∈ seen then 1 + countDups rest seen
    else countDups rest (n :: seen)

/-- `_detect_repetition`: exact-duplicate normalized sentences divided by
total qualifying sentences; `0` below 3 qualifying sentences. -/
def detect_repetition (content : String) : ℚ :=
  let sentences := qualSentences content
  if sentences.length < 3 then 0
  else (countDups sentences [] : ℚ) / (sentences.length : ℚ)

/-- The boilerplate phrase list of `_is_generic_content`. -/
def genericPhrases : List String :=
  ["from a strategic standpoint",
   "organizations are increasingly prioritizing",
   "driven by regulatory and operational pressures",
   "in today\x27s rapidly evolving",
   "as we move forward",
   "it is important to note that",
   "in conclusion, it can be said",
   "this article discusses"]

/-- `_is_generic_content`: at least 3 boilerplate phrases found by
case-insensitive substring match. -/
def is_generic_content (content : String) : Bool :=
  let cl : String := ⟨pyLower content.data⟩
  3 ≤ (genericPhrases.countP fun p => pyContains cl p)

/-- The filler-word list of `_calculate_quality_score`. -/
def genericWords : List String :=
  ["various", "multiple", "several", "numerous", "many", "some"]

/-- The technical-term list of `_calculate_quality_score`. -/
def technicalTerms : List String :=
  ["api", "algorithm", "infrastructure", "implementation",
   "architecture", "protocol", "framework", "deployment"]

/-- `_calculate_quality_score`: start at 1, subtract repetition and
genericness penalties, add a capped technical-term bonus, clamp to `[0,1]`. -/
def calculate_quality_score (content : String) : ℚ :=
  let score : ℚ := 1
  let score := score - detect_repetition content * (4/10)
  let score := if is_generic_content content then score - 3/10 else score
  let words := pySplitList (pyLower content.data)
  let genericCount := words.countP fun w => genericWords.any fun g => w = g.data
  let genericRatioQ : ℚ := (genericCount : ℚ) / (max words.length 1 : ℚ)
  let score := score - genericRatioQ * (2/10)
  let techCount := words.countP fun w => technicalTerms.any fun g => w = g.data
  let techRatioQ : ℚ := (techCount : ℚ) / (max words.length 1 : ℚ)
  let score := score + min (techRatioQ * 100) (1/10)
  max (min score 1) 0

/-- `_angle_overused`: among the last 10 entries, strictly more than 40%
share the angle; requires at least 5 entries of history. -/
def angle_overused (st : ValidatorState) (angle : String) : Bool :=
  if st.history.length < 5 then false
  else
    let recent := takeLast 10 st.history
    let angleCount := recent.countP fun e => e.angle = angle
    decide ((recent.length : ℚ) * (4/10) < (angleCount : ℚ))

/-- The history entry appended by `_record_article` (`now` stands for
`datetime.now(UTC).isoformat()`). -/
def recordEntry (now title content angle : String) : HistEntry :=
  { date := now
    title := title
    title_hash := sha256Hex title
    content_hash := sha256Hex content
    angle := angle
    word_count := pyWordCount content }

/-- `_save_history`: write the last `max_history` in-memory entries to disk
(the in-memory list itself is left untouched). -/
def save_history (st : ValidatorState) : ValidatorState :=
  { st with disk := takeLast st.max_history st.history }

/-- `_record_article`: append the entry, then `_save_history`. -/
def record_article (st : ValidatorState) (now title content angle : String) :
    ValidatorState :=
  save_history { st with history := st.history ++ [recordEntry now title content angle] }

/-- The decision dict returned by `DraftValidator.decide`.  Reason strings
keep the source's fixed text; interpolated numerics keep their raw values
(the `:.1%` float formatting is elided). -/
structure Decision where
  decision : DraftDecision
  reasons : List String
  quality_score : ℚ
deriving Repr

/-- The reason appended by the word-count check. -/
def wcReason (wc : ℕ) : String :=
  "Word count too low: " ++ toString wc ++ " words"

/-- The `reasons` list accumulated by the six checks of
`DraftValidator.decide`, in source order. -/
def reasonsOf (st : ValidatorState) (a : Article) : List String :=
  (if is_duplicate_title st a.title then
    ["Duplicate title detected in recent history"] else []) ++
  (if (3 : ℚ)/10 < detect_repetition a.content then
    ["High content repetition detected"] else []) ++
  (if is_generic_content a.content then
    ["Content appears too generic or template-like"] else []) ++
  (if calculate_quality_score a.content < 6/10 then
    ["Content quality below threshold"] else []) ++
  (if angle_overused st a.angle then
    ["Angle overused recently: " ++ a.angle] else []) ++
  (if pyWordCount a.content < 700 then
    [wcReason (pyWordCount a.content)] else [])

/-- `DraftValidator.decide`: run the six checks, collect reasons, HOLD on
any reason, otherwise record the article and PUBLISH. -/
def validatorDecide (st : ValidatorState) (a : Article) (now : String) :
    Decision × ValidatorState :=
  if reasonsOf st a = [] then
    (⟨DraftDecision.PUBLISH, [], calculate_quality_score a.content⟩,
      record_article st now a.title a.content a.angle)
  else
    (⟨DraftDecision.HOLD, reasonsOf st a, calculate_quality_score a.content⟩, st)

/-- The parsed JSON shapes `_load_history` can meet in the history file. -/
inductive HistJson where
  | arr (entries : List HistEntry)
  | nonList
deriving DecidableEq, Repr

/-- The on-disk situations `_load_history` can meet: no file, a file
`json.loads` raises on (storage corruption), or parsed JSON. -/
inductive HistFile where
  | missing
  | corrupt
  | parsed (v : HistJson)
deriving DecidableEq, Repr

/-- `_load_history`: missing file, unparsable file (the `except` branch) and
non-list JSON all yield the empty history. -/
def load_history : HistFile → List HistEntry
  | .missing => []
  | .corrupt => []
  | .parsed (.arr es) => es
  | .parsed .nonList => []

/-- `DraftValidator.__init__`: load the history; the on-disk file is left
as loaded. -/
def initValidator (f : HistFile) (maxHistory : ℕ := 50) : ValidatorState :=
  { max_history := maxHistory
    history := load_history f
    disk := load_history f }

/-! ## Editorial memory (`modules/writer/memory.py`) -/

/-- The JSON object persisted at `data/memory.json`. -/
structure MemData where
  titles : List String
  angles : List String
  authors : List String
  last_updated : Option String
deriving DecidableEq, Repr

/-- `ArticleMemory` state: the in-memory `self.data` plus the parsed
contents of the on-disk file (`none` while the file does not exist). -/
structure MemState where
  max_items : ℕ
  data : MemData
  disk : Option MemData
deriving DecidableEq, Repr

/-- `ArticleMemory._append`: add a non-empty, unseen value, then trim the
list to its last `max_items` elements. -/
def memAppend (maxItems : ℕ) (l : List String) (v : String) : List String :=
  let l := if v ≠ "" ∧ v ∉ l then l ++ [v] else l
  takeLast maxItems l

/-- `ArticleMemory.remember`: `_append` to the three lists, then `_save`
(stamp `last_updated` and write the whole object to disk). -/
def memRemember (st : MemState) (title angle author now : String) : MemState :=
  let d : MemData :=
    { titles := memAppend st.max_items st.data.titles title
      angles := memAppend st.max_items st.data.angles angle
      authors := memAppend st.max_items st.data.authors author
      last_updated := some now }
  { st with data := d, disk := some d }

/-! ## Retry orchestrator (`run_pipeline.main`) -/

/-- Terminal outcome of a pipeline run: the success `return` inside the
attempt loop, or falling off the loop into the PIPELINE FAILED diagnostic. -/
inductive RunOutcome where
  | ACCEPTED
  | EXHAUSTED
deriving DecidableEq, Repr

/-- The external collaborators of `main`, one bundle per run.  Per-attempt
nondeterminism (fresh fetches, fresh shuffles, fresh generations) is indexed
by the attempt number. -/
structure PipelineEnv where
  fetch : ℕ → List NewsItem
  cleanText : String → String
  normUrl : String → String
  shuffle : ℕ → List Weighted → List Weighted
  gen : ℕ → List Weighted → Article
  inject : String → String
  now : String

/-- Steps 4–5 of an attempt: generate the article from the top 3 selected
items (`build_article(selected[:3])`), then inject internal links into its
content. -/
def articleOf (env : PipelineEnv) (k : ℕ) : Article :=
  let items := clean_items env.cleanText env.normUrl (env.fetch k)
  let selected := select_news (env.shuffle k) items
  let a := env.gen k (selected.take 3)
  { a with content := env.inject a.content }

/-- The attempt loop of `main`: each iteration fetches, cleans, selects,
generates (counted by `gens`), injects internal links, validates, and either
returns ACCEPTED on PUBLISH or retries; the loop ends EXHAUSTED.  Returns
(outcome, number of generation calls, final validator state). -/
def runAttempts (env : PipelineEnv) :
    ℕ → ℕ → ℕ → ValidatorState → RunOutcome × ℕ × ValidatorState
  | 0, _, gens, vst => (.EXHAUSTED, gens, vst)
  | rem + 1, k, gens, vst =>
    if (env.fetch k).isEmpty then runAttempts env rem (k + 1) gens vst
    else if (clean_items env.cleanText env.normUrl (env.fetch k)).isEmpty then
      runAttempts env rem (k + 1) gens vst
    else if (select_news (env.shuffle k)
        (clean_items env.cleanText env.normUrl (env.fetch k))).length < 3 then
      runAttempts env rem (k + 1) gens vst
    else if (validatorDecide vst (articleOf env k) env.now).1.decision =
        DraftDecision.PUBLISH then
      (.ACCEPTED, gens + 1, (validatorDecide vst (articleOf env k) env.now).2)
    else
      runAttempts env rem (k + 1) (gens + 1)
        (validatorDecide vst (articleOf env k) env.now).2

/-- `main`: run the attempt loop from attempt 1 with the loaded validator
state; `MAX_ATTEMPTS` defaults to 5 as in `run_pipeline.py`. -/
def runPipeline (env : PipelineEnv) (vst : ValidatorState)
    (maxAttempts : ℕ := 5) : RunOutcome × ℕ × ValidatorState :=
  runAttempts env maxAttempts 1 0 vst

/-! ## Spec-side reference definitions (for refinement comparisons) -/

/-- Modelled from the spec: whitespace normalization of text before
fingerprinting ("the design must normalize whitespace before hashing") —
collapse internal whitespace runs and trim the ends. -/
def specNormalizeWs (s : String) : String :=
  ⟨collapseWs (pyStrip s.data)⟩

/-- Modelled from the spec: the fingerprint the spec prescribes — SHA-256
over whitespace-normalized text, never over the raw text. -/
def specFingerprint (s : String) : String :=
  sha256Hex (specNormalizeWs s)

/-- Modelled from the spec: markup stripping for the word-count check ("the
script/markup-stripped rendered body text, not raw HTML") — drop every
`<...>` tag region.  `inTag` records whether we are inside a tag. -/
def stripMarkupAux : List Char → Bool → List Char
  | [], _ => []
  | c :: cs, inTag =>
    if inTag then
      if c = '>' then stripMarkupAux cs false else stripMarkupAux cs true
    else
      if c = '<' then stripMarkupAux cs true else c :: stripMarkupAux cs false

/-- Modelled from the spec: the word count the spec prescribes — naive
whitespace tokenization of the markup-stripped body text. -/
def specWordCount (s : String) : ℕ :=
  pyWordCount ⟨stripMarkupAux s.data false⟩

/-- Modelled from the spec: loading persisted memory where
"storage-corruption failures abort the whole run immediately" — corrupt or
malformed persisted state is an error, not an empty history. -/
def specLoadHistory : HistFile → Except String (List HistEntry)
  | .missing => .ok []
  | .corrupt => .error "storage corruption"
  | .parsed (.arr es) => .ok es
  | .parsed .nonList => .error "malformed history"

/-! ## Concrete instances used by witnesses and counterexamples -/

/-- A ten-sentence body: six distinct sentences and four repeats that differ
only in case or internal spacing (so they collide after normalization). -/
def body10 : String :=
  String.intercalate ". "
    ["the quantum computing platform expands rapidly",
     "regulators approved the new data privacy framework",
     "chipmakers raised capital for advanced fabrication",
     "the cloud provider migrated its core infrastructure",
     "open source maintainers adopted a stricter mode of work",
     "the startup launched an edge computing appliance",
     "The Quantum  Computing platform expands rapidly",
     "the quantum computing platform  EXPANDS rapidly",
     "Regulators approved the new data privacy framework",
     "chipmakers raised  capital for advanced fabrication"] ++ "."

/-- `n` copies of a string, concatenated. -/
def repStr : ℕ → String → String
  | 0, _ => ""
  | n + 1, s => s ++ repStr n s

/-- Markup-only content: 700 whitespace-separated HTML tags and not a single
word of rendered text. -/
def tagged700 : String := repStr 700 "<p> "

/-- A history entry whose title is "t". -/
def dupEntry : HistEntry :=
  { date := "", title := "t", title_hash := "", content_hash := ""
    angle := "x", word_count := 0 }

/-- A validator state that has already seen the title "t". -/
def stDup : ValidatorState :=
  { max_history := 50, history := [dupEntry], disk := [dupEntry] }

/-- A draft whose title repeats history and whose content is only markup. -/
def aC7 : Article := { title := "t", content := tagged700, angle := "x" }

/-- Numbered placeholder history entries. -/
def baseEntry (n : ℕ) : HistEntry :=
  { date := "", title := Nat.repr n, title_hash := "", content_hash := ""
    angle := "a", word_count := 0 }

/-- A validator state already holding 50 entries (the configured cap), with
disk and memory in agreement. -/
def st50 : ValidatorState :=
  { max_history := 50
    history := (List.range 50).map baseEntry
    disk := (List.range 50).map baseEntry }

/-- An item in its own category, numbered by `n`. -/
def mkCatItem (n : ℕ) : NewsItem :=
  { title := "t", link := "l", summary := "", category := Nat.repr n
    source := "s", source_authority := 1/2 }

/-- 46 items spread over 46 distinct categories. -/
def items46 : List NewsItem := (List.range 46).map mkCatItem

/-- An item with a 26+ character title, numbered link, fixed category. -/
def wItem (n : ℕ) : NewsItem :=
  { title := "abcdefghijklmnopqrstuvwxyz" ++ Nat.repr n, link := Nat.repr n
    summary := "", category := "c", source := "s", source_authority := 1/2 }

/-- A pipeline environment whose generator always produces an empty-content
draft (word count 0), so every validation HOLDs. -/
def envHold : PipelineEnv :=
  { fetch := fun _ => [wItem 0, wItem 1, wItem 2]
    cleanText := id
    normUrl := id
    shuffle := fun _ => id
    gen := fun _ _ => { title := "g", content := "", angle := "x" }
    inject := id
    now := "now" }

/-- The validator state loaded from a missing history file. -/
def vst0 : ValidatorState := initValidator HistFile.missing

/-- An item with a 25-character title. -/
def cItem : NewsItem :=
  { title := "abcdefghijklmnopqrstuvwxy", link := "l", summary := ""
    category := "c", source := "s", source_authority := 1/2 }

/-! ## Helper lemmas about the validator -/

/-- `decide` returns the recorded state exactly on an empty reasons list. -/
lemma validatorDecide_snd (st : ValidatorState) (a : Article) (now : String) :
    (validatorDecide st a now).2 =
      if reasonsOf st a = [] then record_article st now a.title a.content a.angle
      else st := by
  unfold validatorDecide
  split <;> rfl

/-- The decision is PUBLISH exactly on an empty reasons list. -/
lemma validatorDecide_decision (st : ValidatorState) (a : Article) (now : String) :
    (validatorDecide st a now).1.decision =
      if reasonsOf st a = [] then DraftDecision.PUBLISH else DraftDecision.HOLD := by
  unfold validatorDecide
  split <;> rfl

/-- The returned reasons are the accumulated reasons. -/
lemma validatorDecide_reasons (st : ValidatorState) (a : Article) (now : String) :
    (validatorDecide st a now).1.reasons = reasonsOf st a := by
  unfold validatorDecide
  split <;> simp_all

/-- A word count under 700 forces a non-empty reasons list. -/
lemma reasonsOf_ne_nil_of_wc {st : ValidatorState} {a : Article}
    (h : pyWordCount a.content < 700) : reasonsOf st a ≠ [] := by
  unfold reasonsOf
  simp [List.append_eq_nil, h]

/-- A word count under 700 forces a HOLD decision, whatever the history. -/
lemma validatorDecide_hold_of_wc (st : ValidatorState) (a : Article) (now : String)
    (h : pyWordCount a.content < 700) :
    (validatorDecide st a now).1.decision = DraftDecision.HOLD := by
  rw [validatorDecide_decision, if_neg (reasonsOf_ne_nil_of_wc h)]

/-! ## Claim theorems -/

/-- C1: `decide` mutates the store only on PUBLISH — the post state is the
one-entry commit `record_article` on PUBLISH and the unchanged input state on
HOLD; the commit appends exactly the entry carrying the draft's title,
content fingerprint and angle. -/
theorem claim_C1 : ∀ (st : ValidatorState) (a : Article) (now : String),
    ((validatorDecide st a now).2 =
      if (validatorDecide st a now).1.decision = DraftDecision.PUBLISH
      then record_article st now a.title a.content a.angle
      else st)
    ∧ (record_article st now a.title a.content a.angle).history =
        st.history ++ [recordEntry now a.title a.content a.angle] := by
  intro st a now
  refine ⟨?_, rfl⟩
  rw [validatorDecide_snd, validatorDecide_decision]
  by_cases h : reasonsOf st a = [] <;> simp [h]

/-- C3 (amended): after `ArticleMemory.remember` the on-disk object equals
the in-memory object and every retained list is capped at `max_items` with
oldest-first eviction; after the validator's `_record_article` the on-disk
history is only the last `max_history` entries of the in-memory history (a
capped suffix) — the in-memory list itself is not trimmed. -/
theorem claim_C3 :
    (∀ (st : MemState) (t a au now : String),
      (memRemember st t a au now).disk = some (memRemember st t a au now).data)
    ∧ (∀ (maxI : ℕ) (l : List String) (v : String),
        (memAppend maxI l v).length ≤ maxI ∧
        memAppend maxI l v <:+ (if v ≠ "" ∧ v ∉ l then l ++ [v] else l))
    ∧ (∀ (vst : ValidatorState) (now t c a : String),
        (record_article vst now t c a).disk =
          takeLast vst.max_history (record_article vst now t c a).history ∧
        (record_article vst now t c a).disk <:+ (record_article vst now t c a).history ∧
        (record_article vst now t c a).disk.length ≤ vst.max_history) := by
  refine ⟨fun st t a au now => rfl, fun maxI l v => ⟨?_, ?_⟩, fun vst now t c a => ⟨rfl, ?_, ?_⟩⟩
  · simp only [memAppend, takeLast, List.length_drop]
    omega
  · exact List.drop_suffix _ _
  · exact List.drop_suffix _ _
  · simp only [record_article, save_history, takeLast, List.length_drop]
    omega

/-- C3 counterexample: committing a 51st article leaves 51 entries in memory
(over the cap of 50) while only 50 are written to disk, so the on-disk and
in-memory states differ after the commit. -/
theorem counterexample_C3 :
    (record_article st50 "now" "t" "c" "a").history.length = 51 ∧
    (record_article st50 "now" "t" "c" "a").disk.length = 50 ∧
    50 < (record_article st50 "now" "t" "c" "a").history.length ∧
    (record_article st50 "now" "t" "c" "a").history ≠
      (record_article st50 "now" "t" "c" "a").disk := by
  refine ⟨by decide, by decide, by decide, ?_⟩
  intro h
  have := congrArg List.length h
  simp only [record_article, save_history] at this
  revert this
  decide

/-- C4 (amended): the stored fingerprints are SHA-256 of the raw title and
raw content with no whitespace normalization, so texts differing only in
whitespace can produce different fingerprints (witnessed concretely). -/
theorem claim_C4 :
    (∀ now t c a : String,
      (recordEntry now t c a).content_hash = sha256Hex c ∧
      (recordEntry now t c a).title_hash = sha256Hex t)
    ∧ sha256Hex "alpha  beta" ≠ sha256Hex "alpha beta" := by
  exact ⟨fun now t c a => ⟨rfl, rfl⟩, by decide⟩

/-- C4 counterexample: two contents that differ only in whitespace (their
spec-normalized forms coincide) receive different stored fingerprints, so
fingerprints are not computed over whitespace-normalized text. -/
theorem counterexample_C4 :
    specNormalizeWs "alpha  beta" = specNormalizeWs "alpha beta" ∧
    (recordEntry "d" "t" "alpha  beta" "x").content_hash ≠
      (recordEntry "d" "t" "alpha beta" "x").content_hash ∧
    (recordEntry "d" "t" "alpha  beta" "x").content_hash ≠
      specFingerprint "alpha  beta" := by
  refine ⟨by decide, by decide, by decide⟩

/-- C5: the repetition ratio is 0 below three qualifying sentences and
duplicates divided by qualifying-sentence count otherwise; on a body with
10 qualifying sentences of which 4 are exact duplicates after normalization
it equals 0.4. -/
theorem claim_C5 :
    (∀ c : String, (qualSentences c).length < 3 → detect_repetition c = 0)
    ∧ (∀ c : String, 3 ≤ (qualSentences c).length →
        detect_repetition c =
          (countDups (qualSentences c) [] : ℚ) / ((qualSentences c).length : ℚ))
    ∧ (qualSentences body10).length = 10
    ∧ countDups (qualSentences body10) [] = 4
    ∧ detect_repetition body10 = 4/10 := by
  have hlen : (qualSentences body10).length = 10 := by decide
  have hdup : countDups (qualSentences body10) [] = 4 := by decide
  refine ⟨?_, ?_, hlen, hdup, ?_⟩
  · intro c h
    show (if (qualSentences c).length < 3 then (0 : ℚ) else _) = 0
    rw [if_pos h]
  · intro c h
    show (if (qualSentences c).length < 3 then (0 : ℚ) else _) = _
    rw [if_neg (by omega)]
  · show (if (qualSentences body10).length < 3 then (0 : ℚ)
        else (countDups (qualSentences body10) [] : ℚ) /
          ((qualSentences body10).length : ℚ)) = 4/10
    rw [hlen, hdup, if_neg (by norm_num)]
    norm_num

/-- C5 witness: both branches of the theorem applied at concrete bodies. -/
theorem claim_C5_witness :
    (qualSentences "hi").length < 3 ∧ detect_repetition "hi" = 0 ∧
    3 ≤ (qualSentences body10).length ∧
    detect_repetition body10 =
      (countDups (qualSentences body10) [] : ℚ) / ((qualSentences body10).length : ℚ) :=
  ⟨by decide, claim_C5.1 "hi" (by decide), by decide,
    claim_C5.2.1 body10 (by decide)⟩

/-- C8 (amended): a corrupt or malformed persisted history is silently
converted into an empty in-memory history at load — the validator
constructs successfully with no entries — and only a well-formed JSON list
round-trips. -/
theorem claim_C8 :
    load_history HistFile.corrupt = [] ∧
    load_history (HistFile.parsed HistJson.nonList) = [] ∧
    load_history HistFile.missing = [] ∧
    (initValidator HistFile.corrupt 50).history = [] ∧
    (∀ es : List HistEntry, load_history (HistFile.parsed (HistJson.arr es)) = es) := by
  exact ⟨rfl, rfl, rfl, rfl, fun es => rfl⟩

/-- C8 counterexample: on a corrupt history file the code does not abort —
it yields the empty history, disagreeing with the spec-modelled loader that
treats storage corruption as a run-aborting error. -/
theorem counterexample_C8 :
    Except.ok (load_history HistFile.corrupt) ≠ specLoadHistory HistFile.corrupt ∧
    load_history HistFile.corrupt = [] ∧
    specLoadHistory HistFile.corrupt = Except.error "storage corruption" := by
  exact ⟨by simp [load_history, specLoadHistory], rfl, rfl⟩

/-! ## Helper lemmas about the selector and cleaner -/

/-- All items stored across the buckets of a grouping accumulator. -/
def elemsOf (acc : List (String × List Weighted)) : List Weighted :=
  acc.flatMap fun cb => cb.2

/-- Inserting into the grouping adds exactly that item. -/
lemma elemsOf_insertGrouped (acc : List (String × List Weighted)) (w : Weighted) :
    (elemsOf (insertGrouped acc w)).Perm (w :: elemsOf acc) := by
  induction acc with
  | nil => simp [insertGrouped, elemsOf]
  | cons cb rest ih =>
    obtain ⟨c, b⟩ := cb
    by_cases h : c = w.item.category
    · simp only [insertGrouped, if_pos h, elemsOf, List.flatMap_cons,
        List.append_assoc, List.singleton_append]
      exact List.perm_middle
    · simp only [insertGrouped, if_neg h, elemsOf, List.flatMap_cons]
      exact (ih.append_left b).trans List.perm_middle

/-- Folding the grouping over a list collects exactly its elements. -/
lemma elemsOf_foldl (l : List Weighted) :
    ∀ acc, (elemsOf (l.foldl insertGrouped acc)).Perm (elemsOf acc ++ l) := by
  induction l with
  | nil => intro acc; simp
  | cons w rest ih =>
    intro acc
    have h1 := ih (insertGrouped acc w)
    have h2 := (elemsOf_insertGrouped acc w).append_right rest
    simp only [List.foldl_cons]
    exact (h1.trans h2).trans List.perm_middle.symm

/-- The grouped buckets hold exactly the input items. -/
lemma elemsOf_groupByCategory (ws : List Weighted) :
    (elemsOf (groupByCategory ws)).Perm ws := by
  simpa [elemsOf] using elemsOf_foldl ws []

/-- Inserting into the descending order adds exactly that element. -/
lemma insertDesc_perm (x : Weighted) (l : List Weighted) :
    (insertDesc x l).Perm (x :: l) := by
  induction l with
  | nil => exact List.Perm.refl _
  | cons y ys ih =>
    simp only [insertDesc]
    split
    · exact (ih.cons y).trans (List.Perm.swap x y ys)
    · exact List.Perm.refl _

/-- The stable descending sort is a permutation of its input. -/
lemma sortByWeightDesc_perm (b : List Weighted) :
    (sortByWeightDesc b).Perm b := by
  have key : ∀ (l acc : List Weighted),
      (l.foldl (fun acc x => insertDesc x acc) acc).Perm (acc ++ l) := by
    intro l
    induction l with
    | nil => intro acc; simp
    | cons x xs ih =>
      intro acc
      have h1 := ih (insertDesc x acc)
      have h2 := (insertDesc_perm x acc).append_right xs
      simp only [List.foldl_cons]
      exact (h1.trans h2).trans List.perm_middle.symm
  simpa using key b []

/-- Every item of the category phase comes from the input. -/
lemma mem_of_mem_categorySelect {w : Weighted} {ws : List Weighted}
    (h : w ∈ categorySelect ws) : w ∈ ws := by
  rcases List.mem_flatMap.1 h with ⟨cb, hcb, hw⟩
  have hw2 : w ∈ cb.2 := by
    by_cases he : cb.2.isEmpty
    · rw [if_pos he] at hw
      simp at hw
    · rw [if_neg he] at hw
      exact (sortByWeightDesc_perm cb.2).subset (List.take_subset _ _ hw)
  exact (elemsOf_groupByCategory ws).subset (List.mem_flatMap.2 ⟨cb, hcb, hw2⟩)

/-- The top-up never grows the selection past
`max TARGET_TOTAL (length of the category phase)`. -/
lemma topUp_length (ws sel : List Weighted) :
    (topUp ws sel).length ≤ max TARGET_TOTAL sel.length := by
  unfold topUp
  split
  · simp only [List.length_append, List.length_take]
    omega
  · omega

/-- Every item of the top-up result was selected or is an input item. -/
lemma mem_of_mem_topUp {w : Weighted} {ws sel : List Weighted}
    (h : w ∈ topUp ws sel) : w ∈ sel ∨ w ∈ ws := by
  unfold topUp at h
  split at h
  · rcases List.mem_append.1 h with h | h
    · exact .inl h
    · have := (sortByWeightDesc_perm _).subset (List.take_subset _ _ h)
      exact .inr (List.mem_filter.1 this).1
  · exact .inl h

/-- `dedupAux` only ever returns input items. -/
lemma dedupAux_subset (normUrl : String → String) :
    ∀ (l : List NewsItem) (seen : List (String × String)) (x : NewsItem),
      x ∈ dedupAux normUrl l seen → x ∈ l := by
  intro l
  induction l with
  | nil => intro seen x h; simp [dedupAux] at h
  | cons i rest ih =>
    intro seen x h
    simp only [dedupAux] at h
    split at h
    · exact List.mem_cons_of_mem i (ih _ x h)
    · rcases List.mem_cons.1 h with h | h
      · exact h ▸ List.mem_cons_self i rest
      · exact List.mem_cons_of_mem i (ih _ x h)

/-! ## Claims on the selector and cleaner -/

/-- C2 (amended): `select_news` only returns items from the input, and
returns at most `max TARGET_TOTAL (category-phase size)` items — the
`TARGET_TOTAL` bound itself holds only when the per-category quota phase
stays within `TARGET_TOTAL`. -/
theorem claim_C2 (shuffle : List Weighted → List Weighted)
    (hsh : ∀ l : List Weighted, (shuffle l).Perm l) (items : List NewsItem) :
    (select_news shuffle items).length ≤
      max TARGET_TOTAL
        (categorySelect (items.map fun i => ⟨i, score_item i⟩)).length
    ∧ ∀ w ∈ select_news shuffle items, w.item ∈ items := by
  unfold select_news
  split
  · simp
  · constructor
    · rw [(hsh _).length_eq]
      exact topUp_length _ _
    · intro w hw
      have hw1 := (hsh _).mem_iff.1 hw
      have hw2 : w ∈ items.map fun i => (⟨i, score_item i⟩ : Weighted) := by
        rcases mem_of_mem_topUp hw1 with h | h
        · exact mem_of_mem_categorySelect h
        · exact h
      rcases List.mem_map.1 hw2 with ⟨i, hi, rfl⟩
      exact hi

/-- C2 witness: the bound and the membership property at a concrete input
with the identity permutation as shuffle. -/
theorem claim_C2_witness :
    (∀ l : List Weighted, (id l).Perm l) ∧
    ((select_news id [cItem]).length ≤
      max TARGET_TOTAL
        (categorySelect ([cItem].map fun i => ⟨i, score_item i⟩)).length
    ∧ ∀ w ∈ select_news id [cItem], w.item ∈ [cItem]) :=
  ⟨fun l => List.Perm.refl l, claim_C2 id (fun l => List.Perm.refl l) [cItem]⟩

unseal Rat.mul Rat.add Rat.sub Rat.inv in
/-- C2 counterexample: on 46 items in 46 distinct categories the
per-category quota phase alone exceeds `TARGET_TOTAL = 45`, and `select_news`
returns all 46 — more than `target_total` — even with a trivial shuffle. -/
theorem counterexample_C2 :
    (∀ l : List Weighted, (id l).Perm l) ∧
    TARGET_TOTAL < (select_news id items46).length := by
  exact ⟨fun l => List.Perm.refl l, by decide⟩

/-- C9: the selected collection is independent of the random shuffle — for
any two permutation draws the two results are permutations of each other
(same items, possibly different order). -/
theorem claim_C9 (sh1 sh2 : List Weighted → List Weighted)
    (h1 : ∀ l : List Weighted, (sh1 l).Perm l)
    (h2 : ∀ l : List Weighted, (sh2 l).Perm l)
    (items : List NewsItem) :
    (select_news sh1 items).Perm (select_news sh2 items) := by
  unfold select_news
  split
  · exact List.Perm.refl _
  · exact (h1 _).trans (h2 _).symm

/-- C9 witness: the identity and reversal shuffles agree up to order on a
concrete input. -/
theorem claim_C9_witness :
    (∀ l : List Weighted, (id l).Perm l) ∧
    (∀ l : List Weighted, l.reverse.Perm l) ∧
    (select_news id [cItem, wItem 0]).Perm
      (select_news List.reverse [cItem, wItem 0]) :=
  ⟨fun l => List.Perm.refl l, fun l => List.reverse_perm l,
    claim_C9 id List.reverse (fun l => List.Perm.refl l)
      (fun l => List.reverse_perm l) [cItem, wItem 0]⟩

/-- C10: every item returned by `clean_items` has a title of at least 20
characters — in particular a non-empty title. -/
theorem claim_C10 (cleanText normUrl : String → String)
    (items : List NewsItem) :
    ∀ w ∈ clean_items cleanText normUrl items,
      20 ≤ w.title.length ∧ w.title ≠ "" := by
  intro w hw
  unfold clean_items deduplicate at hw
  have h1 := dedupAux_subset normUrl _ [] w hw
  rcases List.mem_filterMap.1 h1 with ⟨i, _, hf⟩
  by_cases hlen : i.title.length < 20
  · rw [if_pos hlen] at hf
    exact absurd hf (by simp)
  · rw [if_neg hlen] at hf
    have hw2 := Option.some.inj hf
    have htitle : w.title = i.title := by rw [← hw2]
    refine ⟨htitle ▸ (by omega), ?_⟩
    intro h0
    rw [htitle] at h0
    rw [h0] at hlen
    exact hlen (by decide)

unseal Rat.mul Rat.add Rat.sub Rat.inv in
/-- C10 witness: a 25-character-titled item survives cleaning and satisfies
the bound. -/
theorem claim_C10_witness :
    cItem ∈ clean_items id id [cItem] ∧
    20 ≤ cItem.title.length ∧ cItem.title ≠ "" :=
  ⟨by decide, claim_C10 id id [cItem] cItem (by decide)⟩

/-! ## Orchestrator claim -/

/-- On a HOLD decision the validator state is returned unchanged. -/
lemma validatorDecide_snd_of_hold {st : ValidatorState} {a : Article}
    {now : String}
    (h : (validatorDecide st a now).1.decision = DraftDecision.HOLD) :
    (validatorDecide st a now).2 = st := by
  rw [validatorDecide_decision] at h
  rw [validatorDecide_snd]
  by_cases hr : reasonsOf st a = []
  · rw [if_pos hr] at h
    exact absurd h (by simp)
  · rw [if_neg hr]

/-- When every attempt reaches validation and every validation HOLDs, the
loop consumes all remaining attempts, makes one generation call per attempt,
leaves the validator state alone and ends EXHAUSTED. -/
lemma runAttempts_all_hold (env : PipelineEnv)
    (hguard : ∀ k : ℕ, (env.fetch k).isEmpty = false
      ∧ (clean_items env.cleanText env.normUrl (env.fetch k)).isEmpty = false
      ∧ ¬ (select_news (env.shuffle k)
          (clean_items env.cleanText env.normUrl (env.fetch k))).length < 3)
    (hhold : ∀ (k : ℕ) (vst : ValidatorState),
      (validatorDecide vst (articleOf env k) env.now).1.decision =
        DraftDecision.HOLD) :
    ∀ (rem k gens : ℕ) (vst : ValidatorState),
      runAttempts env rem k gens vst = (.EXHAUSTED, gens + rem, vst) := by
  intro rem
  induction rem with
  | zero => intro k gens vst; simp [runAttempts]
  | succ r ih =>
    intro k gens vst
    obtain ⟨h1, h2, h3⟩ := hguard k
    have hdec := hhold k vst
    have hpub : ¬ (validatorDecide vst (articleOf env k) env.now).1.decision =
        DraftDecision.PUBLISH := by
      rw [hdec]; simp
    simp only [runAttempts, h1, h2, Bool.false_eq_true, if_false,
      if_neg h3, if_neg hpub]
    rw [validatorDecide_snd_of_hold hdec, ih]
    have : gens + 1 + r = gens + (r + 1) := by omega
    rw [this]

/-- C6: if the validator HOLDs on every attempt (and each attempt reaches
validation), the run ends EXHAUSTED after exactly `maxAttempts` generation
calls — never more — with no publish and the validator state untouched. -/
theorem claim_C6 (env : PipelineEnv) (vst : ValidatorState) (maxAttempts : ℕ)
    (hguard : ∀ k : ℕ, (env.fetch k).isEmpty = false
      ∧ (clean_items env.cleanText env.normUrl (env.fetch k)).isEmpty = false
      ∧ ¬ (select_news (env.shuffle k)
          (clean_items env.cleanText env.normUrl (env.fetch k))).length < 3)
    (hhold : ∀ (k : ℕ) (vst' : ValidatorState),
      (validatorDecide vst' (articleOf env k) env.now).1.decision =
        DraftDecision.HOLD) :
    runPipeline env vst maxAttempts = (RunOutcome.EXHAUSTED, maxAttempts, vst) := by
  unfold runPipeline
  rw [runAttempts_all_hold env hguard hhold maxAttempts 1 0 vst]
  simp

unseal Rat.mul Rat.add Rat.sub Rat.inv in
/-- C6 witness: with `max_attempts = 3` and an always-HOLD generator the run
is EXHAUSTED after exactly 3 generation calls. -/
theorem claim_C6_witness :
    (∀ k : ℕ, (envHold.fetch k).isEmpty = false
      ∧ (clean_items envHold.cleanText envHold.normUrl (envHold.fetch k)).isEmpty = false
      ∧ ¬ (select_news (envHold.shuffle k)
          (clean_items envHold.cleanText envHold.normUrl (envHold.fetch k))).length < 3)
    ∧ (∀ (k : ℕ) (vst' : ValidatorState),
        (validatorDecide vst' (articleOf envHold k) envHold.now).1.decision =
          DraftDecision.HOLD)
    ∧ runPipeline envHold vst0 3 = (RunOutcome.EXHAUSTED, 3, vst0) := by
  have hg : ∀ k : ℕ, (envHold.fetch k).isEmpty = false
      ∧ (clean_items envHold.cleanText envHold.normUrl (envHold.fetch k)).isEmpty = false
      ∧ ¬ (select_news (envHold.shuffle k)
          (clean_items envHold.cleanText envHold.normUrl (envHold.fetch k))).length < 3 := by
    intro k
    refine ⟨?_, ?_, ?_⟩
    · show ([wItem 0, wItem 1, wItem 2] : List NewsItem).isEmpty = false
      decide
    · show (clean_items id id [wItem 0, wItem 1, wItem 2]).isEmpty = false
      decide
    · show ¬ (select_news id (clean_items id id [wItem 0, wItem 1, wItem 2])).length < 3
      decide
  have hh : ∀ (k : ℕ) (vst' : ValidatorState),
      (validatorDecide vst' (articleOf envHold k) envHold.now).1.decision =
        DraftDecision.HOLD := by
    intro k vst'
    refine validatorDecide_hold_of_wc vst' (articleOf envHold k) envHold.now ?_
    show pyWordCount ("" : String) < 700
    decide
  exact ⟨hg, hh, claim_C6 envHold vst0 3 hg hh⟩

/-! ## Word-count claim -/

/-- The word-count reason always starts with the letter W. -/
lemma wcReason_head (wc : ℕ) : (wcReason wc).data.head? = some 'W' := by
  have h : "Word count too low: ".data = 'W' :: "ord count too low: ".data := rfl
  show ((("Word count too low: " ++ toString wc) ++ " words")).data.head? = some 'W'
  rw [String.data_append, String.data_append, h, List.cons_append,
    List.cons_append]
  rfl

/-- The angle reason always starts with the letter A. -/
lemma angleReason_head (ang : String) :
    ("Angle overused recently: " ++ ang).data.head? = some 'A' := by
  have h : "Angle overused recently: ".data =
      'A' :: "ngle overused recently: ".data := rfl
  rw [String.data_append, h, List.cons_append]
  rfl

/-- Membership in a conditional singleton forces equality. -/
lemma eq_of_mem_ite_singleton {b : Prop} [Decidable b] {x a : α}
    (h : a ∈ if b then [x] else []) : a = x := by
  split at h
  · simpa using h
  · simp at h

/-- The word-count reason is collected exactly when the raw-content token
count is below 700. -/
lemma wcReason_mem_reasonsOf (st : ValidatorState) (a : Article) :
    wcReason (pyWordCount a.content) ∈ reasonsOf st a ↔
      pyWordCount a.content < 700 := by
  constructor
  · intro h
    by_cases hwc : pyWordCount a.content < 700
    · exact hwc
    · exfalso
      unfold reasonsOf at h
      rw [if_neg hwc] at h
      have hW := wcReason_head (pyWordCount a.content)
      simp only [List.append_nil, List.mem_append] at h
      rcases h with ((((h | h) | h) | h) | h)
      · rw [eq_of_mem_ite_singleton h] at hW
        exact absurd hW (by decide)
      · rw [eq_of_mem_ite_singleton h] at hW
        exact absurd hW (by decide)
      · rw [eq_of_mem_ite_singleton h] at hW
        exact absurd hW (by decide)
      · rw [eq_of_mem_ite_singleton h] at hW
        exact absurd hW (by decide)
      · rw [eq_of_mem_ite_singleton h, angleReason_head] at hW
        simp at hW
  · intro hwc
    unfold reasonsOf
    simp [List.mem_append, hwc]

/-- C7 (amended): the validator's word-count check adds its reason exactly
when the naive whitespace-token count of the raw content string — the
rendered HTML markup included, not markup-stripped text — is below 700. -/
theorem claim_C7 : ∀ (st : ValidatorState) (a : Article) (now : String),
    wcReason (pyWordCount a.content) ∈ (validatorDecide st a now).1.reasons ↔
      pyWordCount a.content < 700 := by
  intro st a now
  rw [validatorDecide_reasons]
  exact wcReason_mem_reasonsOf st a

/-- Tokenizing `n` repetitions of a tag-plus-space yields `n` tag tokens. -/
lemma pySplitList_repStr_tag (n : ℕ) :
    pySplitList (repStr n "<p> ").data =
      List.replicate n ['\x3c', 'p', '>'] := by
  induction n with
  | zero => rfl
  | succ m ih =>
    have hdata : (repStr (m + 1) "<p> ").data =
        '\x3c' :: 'p' :: '>' :: ' ' :: (repStr m "<p> ").data := by
      show ("<p> " ++ repStr m "<p> ").data = _
      rw [String.data_append]
      rfl
    have hstep : ∀ r : List Char,
        pySplitAux ('\x3c' :: 'p' :: '>' :: ' ' :: r) [] =
          ['\x3c', 'p', '>'] :: pySplitAux r [] := fun r => rfl
    show pySplitAux (repStr (m + 1) "<p> ").data [] = _
    rw [hdata, hstep, List.replicate_succ]
    exact congrArg _ ih

/-- The raw token count of `n` tag repetitions is `n`. -/
lemma pyWordCount_repStr_tag (n : ℕ) : pyWordCount (repStr n "<p> ") = n := by
  show (pySplitList (repStr n "<p> ").data).length = n
  rw [pySplitList_repStr_tag, List.length_replicate]

/-- Stripping markup from `n` tag repetitions leaves only spaces. -/
lemma stripMarkup_repStr_tag (n : ℕ) :
    stripMarkupAux (repStr n "<p> ").data false = List.replicate n ' ' := by
  induction n with
  | zero => rfl
  | succ m ih =>
    have hdata : (repStr (m + 1) "<p> ").data =
        '\x3c' :: 'p' :: '>' :: ' ' :: (repStr m "<p> ").data := by
      show ("<p> " ++ repStr m "<p> ").data = _
      rw [String.data_append]
      rfl
    have hstep : ∀ r : List Char,
        stripMarkupAux ('\x3c' :: 'p' :: '>' :: ' ' :: r) false =
          ' ' :: stripMarkupAux r false := fun r => rfl
    rw [hdata, hstep, List.replicate_succ]
    exact congrArg _ ih

/-- Whitespace-only text tokenizes to nothing. -/
lemma pySplitAux_spaces (n : ℕ) : pySplitAux (List.replicate n ' ') [] = [] := by
  induction n with
  | zero => rfl
  | succ m ih =>
    rw [List.replicate_succ]
    show pySplitAux (List.replicate m ' ') [] = []
    exact ih

/-- The markup-stripped word count of `n` tag repetitions is 0. -/
lemma specWordCount_repStr_tag (n : ℕ) : specWordCount (repStr n "<p> ") = 0 := by
  show (pySplitList (stripMarkupAux (repStr n "<p> ").data false)).length = 0
  rw [stripMarkup_repStr_tag]
  show (pySplitAux (List.replicate n ' ') []).length = 0
  rw [pySplitAux_spaces]
  rfl

/-- C7 counterexample: a draft whose content is 700 whitespace-separated
HTML tags has a markup-stripped word count of 0 (< 700), yet the validator
collects no word-count reason, because it tokenizes the raw markup
(700 tokens, not below the floor). -/
theorem counterexample_C7 :
    specWordCount tagged700 < 700 ∧
    pyWordCount tagged700 = 700 ∧
    wcReason (pyWordCount tagged700) ∉ reasonsOf stDup aC7 := by
  have hraw : pyWordCount tagged700 = 700 := pyWordCount_repStr_tag 700
  have hspec : specWordCount tagged700 = 0 := specWordCount_repStr_tag 700
  refine ⟨by rw [hspec]; norm_num, hraw, ?_⟩
  intro hmem
  have h := (wcReason_mem_reasonsOf stDup aC7).1 hmem
  have hc : aC7.content = tagged700 := rfl
  rw [hc, hraw] at h
  exact absurd h (by norm_num)
